import Mathlib

/-!
Shallow embedding of the real-time chat coordinator of UG-EMPRENDE
(src/src/userService.js socket server snapshot, src/src/chatService.js,
src/src/server.js, src/src/routes/chatRoutes.js).

Conventions of the embedding:
* JS strings are Lean `String`s; the JS values `null`/`undefined`/`''` that
  the source collapses through `|| null` / `if (!x)` truthiness checks are
  represented by the empty string `""` (falsy) unless noted otherwise.
* The in-memory `Map` objects (`connectionsByUser`, `lastSeenByUser`,
  `privacyByUser`, `socketsWatchingUser`, `watchedUsersBySocket`) are total
  functions with a default value; `Map.delete` is modelled as resetting to
  the default, which is observationally identical because every read in the
  source goes through `map.get(k) || default`.
* External Supabase tables are association lists; a fallible query carries
  an explicit success/failure knob where the source branches on `error`.
* Timestamps (`new Date().toISOString()`) are opaque strings supplied as
  arguments.
-/

/-- Update one key of a string-keyed map-as-function. -/
def updFn {α : Type} (f : String → α) (k : String) (v : α) : String → α :=
  fun x => if x = k then v else f x

/-! ## Privacy settings (userService.js socket snapshot, `getPrivacy`/`setPrivacy`) -/
/-- Per-user privacy toggles, as stored by `setPrivacy`. -/
structure Privacy where
  showConnectionStatus : Bool
  showReadReceipts : Bool
deriving DecidableEq, Repr

/-- The `privacyByUser` map: `none` models an absent key. -/
abbrev PrivacyMap := String → Option Privacy

/-- `getPrivacy(userId)`: falsy user id or absent entry yields the defaults
`{showConnectionStatus:true, showReadReceipts:true}`; a stored entry is read
through `p?.field !== false`, which for boolean-valued stored fields is the
field itself. -/
def getPrivacy (priv : PrivacyMap) (userId : String) : Privacy :=
  if userId = "" then ⟨true, true⟩
  else match priv userId with
    | none => ⟨true, true⟩
    | some p => p

/-- `setPrivacy(userId, next)`: partial update, a field changes only when the
incoming payload carries a boolean for it. -/
def setPrivacy (priv : PrivacyMap) (userId : String)
    (nextShowConn nextShowRead : Option Bool) : PrivacyMap :=
  if userId = "" then priv
  else
    let current := getPrivacy priv userId
    updFn priv userId (some
      { showConnectionStatus := nextShowConn.getD current.showConnectionStatus
        showReadReceipts := nextShowRead.getD current.showReadReceipts })

/-! ## Presence tracking (`connectionsByUser`, `lastSeenByUser`) -/
/-- In-memory presence state.  Connection counts are integers so that the
`Math.max(0, count - 1)` floor in `setUserOffline` is a real clamp, not an
artifact of truncated subtraction. -/
structure PresenceState where
  connections : String → Int
  lastSeen : String → Option String

/-- Fresh process state: both maps empty. -/
def PresenceState.init : PresenceState :=
  { connections := fun _ => 0, lastSeen := fun _ => none }

/-- `setUserOnline(userId)`: increment the per-user counter (no-op on falsy id). -/
def setUserOnline (s : PresenceState) (userId : String) : PresenceState :=
  if userId = "" then s
  else { s with connections := updFn s.connections userId (s.connections userId + 1) }

/-- `setUserOffline(userId)`: decrement with a floor at 0, then record the
current time as last-seen.  The source performs
`lastSeenByUser.set(userId, now)` on every disconnect, unconditionally —
not only when the counter reaches 0.  (The tail write to `profiles` is
best-effort and outside this state.) -/
def setUserOffline (s : PresenceState) (userId : String) (now : String) : PresenceState :=
  if userId = "" then s
  else
    let nextCount := max 0 (s.connections userId - 1)
    { connections := updFn s.connections userId nextCount
      lastSeen := updFn s.lastSeen userId (some now) }

/-- `isUserOnline(userId)`: `(connectionsByUser.get(userId) || 0) > 0`. -/
def isUserOnline (s : PresenceState) (userId : String) : Bool :=
  0 < s.connections userId

/-- `getLastSeen(userId)`: `lastSeenByUser.get(userId) || null`. -/
def getLastSeen (s : PresenceState) (userId : String) : Option String :=
  s.lastSeen userId

/-- The payload produced by `makePresencePayload`. -/
structure PresencePayload where
  userId : String
  visible : Bool
  online : Bool
  lastSeenAt : Option String
deriving DecidableEq, Repr

/-- `makePresencePayload({viewerUserId, subjectUserId})`: privacy-gated
presence visibility. -/
def makePresencePayload (priv : PrivacyMap) (s : PresenceState)
    (viewerUserId subjectUserId : String) : PresencePayload :=
  let viewer := getPrivacy priv viewerUserId
  let subject := getPrivacy priv subjectUserId
  if !viewer.showConnectionStatus then
    { userId := subjectUserId, visible := false, online := false, lastSeenAt := none }
  else if !subject.showConnectionStatus then
    { userId := subjectUserId, visible := false, online := false, lastSeenAt := none }
  else
    let online := isUserOnline s subjectUserId
    { userId := subjectUserId, visible := true, online
      lastSeenAt := if online then none else getLastSeen s subjectUserId }

/-- Connect / disconnect events driving the presence counter, as fired by the
`io.on('connection')` / `socket.on('disconnect')` handlers. -/
inductive PresenceEv where
  | online (userId : String)
  | offline (userId : String) (now : String)

/-- Apply one presence event. -/
def applyPresenceEv (s : PresenceState) : PresenceEv → PresenceState
  | .online u => setUserOnline s u
  | .offline u now => setUserOffline s u now

/-- Apply a sequence of presence events. -/
def applyPresenceEvs (s : PresenceState) (evs : List PresenceEv) : PresenceState :=
  evs.foldl applyPresenceEv s

/-! ## Conversation ids (chatService.js, `makeConversationId` / `parseConversationId`)

JS strings are modelled character-exactly as `List Char`; `String.prototype.split(':')`
and `Array.prototype.join(':')` are `splitOnColon` / `joinColon`. -/
/-- `s.split(':')`: always returns one more part than the number of colons;
`''.split(':') = ['']`. -/
def splitOnColon : List Char → List (List Char)
  | [] => [[]]
  | ch :: rest =>
    if ch = ':' then [] :: splitOnColon rest
    else
      match splitOnColon rest with
      | [] => [[ch]]
      | p :: ps => (ch :: p) :: ps

/-- `parts.join(':')`. -/
def joinColon : List (List Char) → List Char
  | [] => []
  | p :: ps =>
    match ps with
    | [] => p
    | _ :: _ => p ++ ':' :: joinColon ps

/-- `makeConversationId(businessId, customerId)`: null on falsy arguments,
otherwise the template `` `conv:${businessId}:${customerId}` ``. -/
def makeConversationId (businessId customerId : List Char) : Option (List Char) :=
  if businessId = [] ∨ customerId = [] then none
  else some (('c' :: 'o' :: 'n' :: 'v' :: ':' :: businessId) ++ ':' :: customerId)

/-- `parseConversationId(conversationId)`: requires the `conv:` lead-in, splits
on colons, takes part 1 as businessId and rejoins the remainder (colons allowed
inside the customerId); empty components degrade to null. -/
def parseConversationId (conversationId : List Char) : Option (List Char × List Char) :=
  if conversationId.take 5 = ['c', 'o', 'n', 'v', ':'] then
    let parts := splitOnColon conversationId
    if parts.length < 3 then none
    else
      let businessId := (parts[1]?).getD []
      let customerId := joinColon (parts.drop 2)
      if businessId = [] ∨ customerId = [] then none
      else some (businessId, customerId)
  else none

/-- String-level wrapper used by `resolveConversationMeta`. -/
def makeConversationIdStr (businessId customerId : String) : Option String :=
  (makeConversationId businessId.data customerId.data).map List.asString

/-- String-level wrapper used by `resolveConversationMeta`. -/
def parseConversationIdStr (s : String) : Option (String × String) :=
  (parseConversationId s.data).map (fun p => (p.1.asString, p.2.asString))

/-! ## Conversation resolution (chatService.js, `resolveConversationMeta`)

The `businesses` table is a list of `(id, owner_id)` rows; the `orders`
table a list of `(id, business_id, customer_id)` rows.  Lookups model the
success path of the corresponding Supabase queries; a missing `orders` row
is the caught `.single()` failure. -/
/-- The object returned by `resolveConversationMeta`. -/
structure ConvMeta where
  chatId : String
  conversationId : String
  businessId : Option String
  customerId : Option String
  businessOwnerUserId : Option String
  orderId : Option String
deriving DecidableEq, Repr

/-- `businesses.select('owner_id').eq('id', businessId).maybeSingle()` followed
by `biz?.owner_id || null`. -/
def lookupBusinessOwner (businesses : List (String × String)) (businessId : String) :
    Option String :=
  match businesses.find? (fun p => p.1 = businessId) with
  | none => none
  | some p => if p.2 = "" then none else some p.2

/-- `resolveConversationMeta(chatId)`: canonical `conv:` ids are parsed
directly; otherwise the id is tried as an order id and the conversation id is
derived from the order's business/customer pair; an unknown id degrades to
itself with null participants. -/
def resolveConversationMeta (businesses : List (String × String))
    (orders : List (String × String × String)) (chatId : String) : ConvMeta :=
  if chatId = "" then
    { chatId := "", conversationId := "", businessId := none, customerId := none
      businessOwnerUserId := none, orderId := none }
  else
    match parseConversationIdStr chatId with
    | some (businessId, customerId) =>
      { chatId, conversationId := chatId, businessId := some businessId
        customerId := some customerId
        businessOwnerUserId := lookupBusinessOwner businesses businessId
        orderId := none }
    | none =>
      match orders.find? (fun o => o.1 = chatId) with
      | some o =>
        let businessId := o.2.1
        let customerId := o.2.2
        { chatId
          conversationId := (makeConversationIdStr businessId customerId).getD chatId
          businessId := if businessId = "" then none else some businessId
          customerId := if customerId = "" then none else some customerId
          businessOwnerUserId :=
            if businessId = "" then none else lookupBusinessOwner businesses businessId
          orderId := if o.1 = "" then none else some o.1 }
      | none =>
        { chatId, conversationId := chatId, businessId := none, customerId := none
          businessOwnerUserId := none, orderId := none }

/-! ## Message persistence and history (chatService.js, `addMessage` / `getMessages`) -/
/-- A row of the external `messages` table. -/
structure MsgRow where
  order_id : String
  sender_id : String
  sender_name : String
  text : String
deriving DecidableEq, Repr

/-- `addMessage(chatId, message)`: resolve the canonical conversation id, then
insert.  `dbOk` is the insert's success knob: on a Supabase error the source
logs and returns `null` (it does not throw), leaving the store unchanged. -/
def addMessage (businesses : List (String × String))
    (orders : List (String × String × String)) (dbOk : Bool) (store : List MsgRow)
    (chatId senderId senderName text : String) : List MsgRow × Option MsgRow :=
  if chatId = "" ∨ text = "" then (store, none)
  else
    let meta := resolveConversationMeta businesses orders chatId
    let convoId := if meta.conversationId = "" then chatId else meta.conversationId
    let row : MsgRow :=
      { order_id := convoId, sender_id := senderId
        sender_name := if senderName = "" then "Anon" else senderName, text }
    if dbOk then (store ++ [row], some row) else (store, none)

/-- `getMessages(chatId, viewerId)` (success path): query by the resolved
thread key (both keys when a distinct legacy order id exists), then drop
messages whose sender the viewer currently blocks.  `blocks` is the
`user_blocks` table as `(blocker_id, blocked_id)` rows. -/
def getMessages (blocks : List (String × String)) (businesses : List (String × String))
    (orders : List (String × String × String)) (store : List MsgRow)
    (chatId viewerId : String) : List MsgRow :=
  if chatId = "" then []
  else
    let meta := resolveConversationMeta businesses orders chatId
    let convoId := meta.conversationId
    if convoId = "" then []
    else
      let list :=
        match meta.orderId with
        | some oid =>
          if oid ≠ convoId then
            store.filter (fun m => m.order_id == oid || m.order_id == convoId)
          else store.filter (fun m => m.order_id == convoId)
        | none => store.filter (fun m => m.order_id == convoId)
      if viewerId = "" then list
      else
        let blockedIds := (blocks.filter (fun p => p.1 = viewerId)).map (fun p => p.2)
        list.filter (fun m => !(blockedIds.contains m.sender_id))

/-! ## Socket message fan-out (userService.js socket snapshot, `socket.on('message')`) -/
/-- A live connection in the room snapshot returned by `fetchSockets()`:
its socket id and `s.handshake.query?.userId` (empty for anonymous). -/
structure Sock where
  id : String
  userId : String
deriving DecidableEq, Repr

/-- `String.prototype.trim()`: strip whitespace from both ends (modelled over
the character list so that it evaluates inside the kernel). -/
def jsTrim (s : String) : String :=
  (((s.data.dropWhile Char.isWhitespace).reverse.dropWhile Char.isWhitespace).reverse).asString

/-- `Array.from(new Set(xs))`: first-occurrence deduplication. -/
def dedupAcc (seen : List String) : List String → List String
  | [] => []
  | x :: xs => if seen.contains x then dedupAcc seen xs else x :: dedupAcc (x :: seen) xs

/-- Destination user ids of a fan-out: trimmed socket user ids, non-empty,
sender excluded (when known), deduplicated — the batched block query's
candidate list. -/
def destUserIdsOf (sockets : List Sock) (sender : String) : List String :=
  dedupAcc []
    (((sockets.map (fun s => jsTrim s.userId)).filter (fun uid => !(uid == "")))
      |>.filter (fun uid => (sender == "") || !(uid == sender)))

/-- The blocked set computed from the one batched `user_blocks` query:
on a query error (`queryOk = false`) or when there is no sender / no
destination it stays empty. -/
def blockedSetOf (blocks : List (String × String)) (queryOk : Bool) (sender : String)
    (destUserIds : List String) : List String :=
  if sender ≠ "" ∧ destUserIds ≠ [] then
    if queryOk then
      ((blocks.filter (fun p => p.2 = sender ∧ p.1 ∈ destUserIds)).map
        (fun p => p.1)).filter (fun uid => !(uid == ""))
    else []
  else []

/-- The delivery-loop skip condition:
`sender && destUserId && destUserId !== sender && blockedSet.has(destUserId)`. -/
def shouldSkip (sender : String) (blockedSet : List String) (s : Sock) : Bool :=
  !(sender == "") && !(jsTrim s.userId == "") && !(jsTrim s.userId == sender)
    && blockedSet.contains (jsTrim s.userId)

/-- Room sockets that actually receive the `message` emit. -/
def deliveredSockets (sockets : List Sock) (sender : String)
    (blockedSet : List String) : List Sock :=
  sockets.filter (fun s => !(shouldSkip sender blockedSet s))

/-- Result of one `socket.on('message')` invocation: the message store after
the send, and the live `message` emissions `(socket, row, echoed clientId)`. -/
structure SendResult where
  store : List MsgRow
  delivered : List (Sock × MsgRow × String)
deriving DecidableEq, Repr

/-- `socket.on('message', ...)` (text payload, newer snapshot): persist via
`addMessage`, then — only when persistence yielded a row — enumerate room
sockets, run the single batched blocked-set query, and emit to every
non-skipped socket with the client's provisional id attached.  The handler
has no error emission of any kind.  (The fire-and-forget notification /
`chat:preview` tail is outside this result.) -/
def handleMessage (blocks : List (String × String)) (businesses : List (String × String))
    (orders : List (String × String × String)) (dbOk queryOk : Bool)
    (store : List MsgRow) (roomSockets : List Sock)
    (handshakeUserId handshakeUserName : String)
    (roomIdRaw payloadText payloadSenderId payloadSenderName clientId : String) :
    SendResult :=
  if roomIdRaw = "" ∨ jsTrim payloadText = "" then { store, delivered := [] }
  else
    let meta := resolveConversationMeta businesses orders roomIdRaw
    let convoId := if meta.conversationId = "" then roomIdRaw else meta.conversationId
    let senderIdArg := if payloadSenderId = "" then handshakeUserId else payloadSenderId
    let senderNameArg :=
      if payloadSenderName = "" then handshakeUserName else payloadSenderName
    let res := addMessage businesses orders dbOk store convoId senderIdArg senderNameArg
      payloadText
    match res.2 with
    | none => { store := res.1, delivered := [] }
    | some msg =>
      let sender :=
        if msg.sender_id ≠ "" then msg.sender_id
        else if payloadSenderId ≠ "" then payloadSenderId
        else handshakeUserId
      let destUserIds := destUserIdsOf roomSockets sender
      let blockedSet := blockedSetOf blocks queryOk sender destUserIds
      { store := res.1
        delivered := (deliveredSockets roomSockets sender blockedSet).map
          (fun s => (s, msg, clientId)) }

/-- `POST /:chatId/messages` (chatRoutes.js, authorized path): missing text is
a 400, otherwise the route answers 201 with whatever `addMessage` returned —
including `message: null` when the insert failed. -/
def postMessageRoute (businesses : List (String × String))
    (orders : List (String × String × String)) (dbOk : Bool) (store : List MsgRow)
    (chatId text senderId senderName : String) : List MsgRow × Nat × Option MsgRow :=
  if text = "" then (store, 400, none)
  else
    let res := addMessage businesses orders dbOk store chatId senderId senderName text
    (res.1, 201, res.2)

/-! ## Read receipts (userService.js socket snapshot, `socket.on('read')`) -/
/-- The payload of an outgoing `read` event. -/
structure ReadEvt where
  conversationId : String
  userId : String
  lastReadMessageId : String
  readAt : String
deriving DecidableEq, Repr

/-- `socket.on('read', ...)`: nothing is emitted when the reader opted out of
read receipts; otherwise each room socket receives the event unless its own
viewer opted out.  `convoId` is the already-resolved room id. -/
def handleRead (priv : PrivacyMap) (roomSockets : List Sock)
    (thisUserId convoId lastReadMessageId readAt : String) : List (Sock × ReadEvt) :=
  if thisUserId = "" then []
  else if !(getPrivacy priv thisUserId).showReadReceipts then []
  else if convoId = "" then []
  else
    (roomSockets.filter (fun s => (getPrivacy priv s.userId).showReadReceipts)).map
      (fun s => (s, ⟨convoId, thisUserId, lastReadMessageId, readAt⟩))

/-! ## Room membership (userService.js socket snapshot, `socket.on('joinOrder')`) -/
/-- A socket's chat-room membership and its `socket.data.conversationId`. -/
structure SockRoomState where
  chatRooms : List String
  conversationId : Option String
deriving DecidableEq, Repr

/-- A freshly connected socket: in no chat room. -/
def SockRoomState.empty : SockRoomState := ⟨[], none⟩

/-- `socket.join('chat:' + room)`: idempotent add. -/
def socketJoin (st : SockRoomState) (room : String) : SockRoomState :=
  { st with chatRooms :=
      if st.chatRooms.contains room then st.chatRooms else st.chatRooms ++ [room] }

/-- `socket.leave('chat:' + room)`. -/
def socketLeave (st : SockRoomState) (room : String) : SockRoomState :=
  { st with chatRooms := st.chatRooms.filter (fun r => !(r == room)) }

/-- `socket.on('joinOrder', ...)`: resolve the room id; leave the previous
conversation first when it differs; join and record the new conversation. -/
def handleJoinOrder (businesses : List (String × String))
    (orders : List (String × String × String)) (st : SockRoomState)
    (roomId : String) : SockRoomState :=
  if roomId = "" then st
  else
    let meta := resolveConversationMeta businesses orders roomId
    let convoId := if meta.conversationId = "" then roomId else meta.conversationId
    let st1 :=
      match st.conversationId with
      | some prev => if prev ≠ convoId then socketLeave st prev else st
      | none => st
    { socketJoin st1 convoId with conversationId := some convoId }

/-- `io.to('chat:' + room)` reaches this socket iff it is in that room. -/
def receivesRoomBroadcast (st : SockRoomState) (room : String) : Bool :=
  st.chatRooms.contains room

/-- The single-room invariant: the chat rooms a socket is in are exactly its
recorded current conversation (none ⇒ no room). -/
def roomInv (st : SockRoomState) : Prop :=
  match st.conversationId with
  | none => st.chatRooms = []
  | some c => st.chatRooms = [c]

/-! ## Presence watch registry (userService.js socket snapshot) -/
/-- `Set.add`: append if absent. -/
def setAdd (l : List String) (x : String) : List String :=
  if l.contains x then l else l ++ [x]

/-- The two watch indices: subject ↦ watching socket ids, and
socket ↦ watched subject ids. -/
structure WatchState where
  socketsWatchingUser : String → List String
  watchedUsersBySocket : String → List String

/-- Fresh process state: no watches. -/
def WatchState.empty : WatchState := ⟨fun _ => [], fun _ => []⟩

/-- `addPresenceWatch(socketId, subjectUserId)`: register in both indices
(no-op on falsy arguments). -/
def addPresenceWatch (st : WatchState) (socketId subjectUserId : String) : WatchState :=
  if socketId = "" ∨ subjectUserId = "" then st
  else
    { socketsWatchingUser := updFn st.socketsWatchingUser subjectUserId
        (setAdd (st.socketsWatchingUser subjectUserId) socketId)
      watchedUsersBySocket := updFn st.watchedUsersBySocket socketId
        (setAdd (st.watchedUsersBySocket socketId) subjectUserId) }

/-- `removeAllPresenceWatchesForSocket(socketId)`: walk the socket's subject
list through the reverse index, then drop the socket's entry. -/
def removeAllPresenceWatchesForSocket (st : WatchState) (socketId : String) : WatchState :=
  if socketId = "" then st
  else
    let subjects := st.watchedUsersBySocket socketId
    { socketsWatchingUser := subjects.foldl
        (fun f uid => updFn f uid ((f uid).filter (fun sid => !(sid == socketId))))
        st.socketsWatchingUser
      watchedUsersBySocket := updFn st.watchedUsersBySocket socketId [] }

/-- The accepted subject list of a `presence:watch` request: stringify/trim,
drop empties, truncate to 200, then deduplicate (the source's
`Array.from(new Set(raw.map(...).filter(Boolean).slice(0, 200)))`). -/
def acceptedWatchList (raw : List String) : List String :=
  dedupAcc [] (((raw.map (fun v => jsTrim v)).filter (fun v => !(v == ""))).take 200)

/-- `socket.on('presence:watch', ...)`: replace this socket's subscriptions
wholesale and return the new state together with the subject ids that get an
immediate snapshot push (`none` models a payload whose `userIds` is not an
array).  Self-watch is skipped at registration time. -/
def handlePresenceWatch (st : WatchState) (socketId thisUserId : String)
    (raw : Option (List String)) : WatchState × List String :=
  if thisUserId = "" then (st, [])
  else
    match raw with
    | none => (st, [])
    | some ids =>
      let st1 := removeAllPresenceWatchesForSocket st socketId
      let list := acceptedWatchList ids
      let st2 := list.foldl
        (fun acc uid => if uid = thisUserId then acc else addPresenceWatch acc socketId uid)
        st1
      (st2, list)

/-- Consistency of the two watch indices. -/
def WatchWF (st : WatchState) : Prop :=
  ∀ u sid, sid ∈ st.socketsWatchingUser u ↔ u ∈ st.watchedUsersBySocket sid

/-! ## Lemmas and claim theorems -/

/-! ### Presence lemmas -/
lemma setUserOnline_connections_nonneg (s : PresenceState) (u v : String)
    (h : 0 ≤ s.connections v) : 0 ≤ (setUserOnline s u).connections v := by
  unfold setUserOnline
  by_cases hu : u = ""
  · simp [hu, h]
  · by_cases hv : v = u
    · subst hv
      simp only [hu, if_false, updFn, if_pos rfl]
      omega
    · simp [hu, hv, updFn, h]

lemma setUserOffline_connections_nonneg (s : PresenceState) (u v now : String)
    (h : 0 ≤ s.connections v) : 0 ≤ (setUserOffline s u now).connections v := by
  unfold setUserOffline
  by_cases hu : u = ""
  · simp [hu, h]
  · by_cases hv : v = u
    · subst hv
      simp only [hu, if_false, updFn, if_pos rfl]
      omega
    · simp [hu, hv, updFn, h]

lemma applyPresenceEvs_connections_nonneg (evs : List PresenceEv) (s : PresenceState)
    (h : ∀ v, 0 ≤ s.connections v) :
    ∀ v, 0 ≤ (applyPresenceEvs s evs).connections v := by
  induction evs generalizing s with
  | nil => simpa [applyPresenceEvs]
  | cons e rest ih =>
    intro v
    have hstep : ∀ w, 0 ≤ (applyPresenceEv s e).connections w := by
      intro w
      cases e with
      | online u => exact setUserOnline_connections_nonneg s u w (h w)
      | offline u now => exact setUserOffline_connections_nonneg s u w now (h w)
    simpa [applyPresenceEvs] using ih (applyPresenceEv s e) hstep v

/-! ### Split/join lemmas -/
lemma splitOnColon_ne_nil (l : List Char) : splitOnColon l ≠ [] := by
  cases l with
  | nil => simp [splitOnColon]
  | cons ch rest =>
    unfold splitOnColon
    by_cases h : ch = ':'
    · simp [h]
    · simp only [h, if_false]
      cases hrec : splitOnColon rest <;> simp

lemma splitOnColon_cons (ch : Char) (rest : List Char) :
    splitOnColon (ch :: rest) =
      if ch = ':' then [] :: splitOnColon rest
      else
        match splitOnColon rest with
        | [] => [[ch]]
        | p :: ps => (ch :: p) :: ps := rfl

lemma splitOnColon_append_noColon (u v : List Char) (h : ':' ∉ u) :
    splitOnColon (u ++ ':' :: v) = u :: splitOnColon v := by
  induction u with
  | nil => simp [splitOnColon]
  | cons ch rest ih =>
    have hch : ch ≠ ':' := fun hc => h (hc ▸ List.mem_cons_self ch rest)
    have hrest : ':' ∉ rest := fun hr => h (List.mem_cons_of_mem ch hr)
    rw [List.cons_append, splitOnColon_cons, if_neg hch, ih hrest]

lemma joinColon_cons_of_ne_nil (p : List Char) (ps : List (List Char)) (h : ps ≠ []) :
    joinColon (p :: ps) = p ++ ':' :: joinColon ps := by
  cases ps with
  | nil => exact absurd rfl h
  | cons q qs => rfl

lemma joinColon_splitOnColon (l : List Char) : joinColon (splitOnColon l) = l := by
  induction l with
  | nil => simp [splitOnColon, joinColon]
  | cons ch rest ih =>
    rw [splitOnColon_cons]
    by_cases h : ch = ':'
    · rw [if_pos h, joinColon_cons_of_ne_nil _ _ (splitOnColon_ne_nil rest), ih, h]
      simp
    · rw [if_neg h]
      cases hrec : splitOnColon rest with
      | nil => exact absurd hrec (splitOnColon_ne_nil rest)
      | cons p ps =>
        rw [hrec] at ih
        show joinColon ((ch :: p) :: ps) = ch :: rest
        cases ps with
        | nil =>
          have h1 : joinColon [p] = p := rfl
          rw [h1] at ih
          show ch :: p = ch :: rest
          rw [ih]
        | cons q qs =>
          rw [joinColon_cons_of_ne_nil p (q :: qs) (by simp)] at ih
          rw [joinColon_cons_of_ne_nil (ch :: p) (q :: qs) (by simp),
            List.cons_append, ih]

lemma makeConversationId_eq_some (b c : List Char) (hb : b ≠ []) (hc : c ≠ []) :
    makeConversationId b c
      = some (('c' :: 'o' :: 'n' :: 'v' :: ':' :: b) ++ ':' :: c) := by
  unfold makeConversationId
  simp [hb, hc]

lemma makeConversationId_eq_none (b c : List Char) (h : b = [] ∨ c = []) :
    makeConversationId b c = none := by
  unfold makeConversationId
  simp [h]

lemma splitOnColon_conv (b c : List Char) (hbnc : ':' ∉ b) :
    splitOnColon (('c' :: 'o' :: 'n' :: 'v' :: ':' :: b) ++ ':' :: c)
      = ['c', 'o', 'n', 'v'] :: b :: splitOnColon c := by
  have h1 : ('c' :: 'o' :: 'n' :: 'v' :: ':' :: b) ++ ':' :: c
      = (['c', 'o', 'n', 'v'] : List Char) ++ ':' :: (b ++ ':' :: c) := by
    simp
  rw [h1, splitOnColon_append_noColon _ _ (by decide),
    splitOnColon_append_noColon _ _ hbnc]

lemma parse_make_conversationId (b c : List Char)
    (hb : b ≠ []) (hbnc : ':' ∉ b) (hc : c ≠ []) :
    (makeConversationId b c).bind parseConversationId = some (b, c) := by
  rw [makeConversationId_eq_some b c hb hc]
  show parseConversationId (('c' :: 'o' :: 'n' :: 'v' :: ':' :: b) ++ ':' :: c)
      = some (b, c)
  have hlen : ¬ (['c', 'o', 'n', 'v'] :: b :: splitOnColon c).length < 3 := by
    cases hx : splitOnColon c with
    | nil => exact absurd hx (splitOnColon_ne_nil c)
    | cons p ps => simp [List.length_cons]
  unfold parseConversationId
  rw [if_pos (show (('c' :: 'o' :: 'n' :: 'v' :: ':' :: b) ++ ':' :: c).take 5
      = ['c', 'o', 'n', 'v', ':'] from rfl)]
  rw [splitOnColon_conv b c hbnc]
  rw [if_neg hlen]
  have hb1 : ((['c', 'o', 'n', 'v'] :: b :: splitOnColon c)[1]?).getD [] = b := by
    simp
  have hd2 : (['c', 'o', 'n', 'v'] :: b :: splitOnColon c).drop 2 = splitOnColon c := rfl
  rw [hb1, hd2, joinColon_splitOnColon c]
  rw [if_neg (by simp [hb, hc])]

/-! ## Claim theorems -/
/-- C1: the presence payload for (viewer, subject) is visible iff both
`showConnectionStatus` toggles are true; whenever either is false the payload
is exactly `{visible:false, online:false, lastSeenAt:null}` and is identical
for any two underlying presence states of the subject — no partial leakage. -/
theorem presence_payload_no_partial_leakage
    (priv : PrivacyMap) (s s' : PresenceState) (viewer subject : String) :
    ((makePresencePayload priv s viewer subject).visible
        = ((getPrivacy priv viewer).showConnectionStatus
            && (getPrivacy priv subject).showConnectionStatus))
    ∧ (((getPrivacy priv viewer).showConnectionStatus
          && (getPrivacy priv subject).showConnectionStatus) = false →
        makePresencePayload priv s viewer subject
            = { userId := subject, visible := false, online := false, lastSeenAt := none }
          ∧ makePresencePayload priv s viewer subject
            = makePresencePayload priv s' viewer subject) := by
  unfold makePresencePayload
  cases hv : (getPrivacy priv viewer).showConnectionStatus with
  | false => simp [hv]
  | true =>
    cases hs : (getPrivacy priv subject).showConnectionStatus with
    | false => simp [hv, hs]
    | true => simp [hv, hs]

/-- Witness for C1 at a concrete opted-out subject and two distinct presence
states (offline, and online with one connection). -/
theorem presence_payload_no_partial_leakage_witness :
    makePresencePayload (updFn (fun _ => none) "bob" (some ⟨false, true⟩))
        (setUserOnline PresenceState.init "bob") "alice" "bob"
      = makePresencePayload (updFn (fun _ => none) "bob" (some ⟨false, true⟩))
        PresenceState.init "alice" "bob"
    ∧ makePresencePayload (updFn (fun _ => none) "bob" (some ⟨false, true⟩))
        (setUserOnline PresenceState.init "bob") "alice" "bob"
      = { userId := "bob", visible := false, online := false, lastSeenAt := none } := by
  have h := presence_payload_no_partial_leakage
    (updFn (fun _ => none) "bob" (some ⟨false, true⟩))
    (setUserOnline PresenceState.init "bob") PresenceState.init "alice" "bob"
  exact ⟨(h.2 (by decide)).2, (h.2 (by decide)).1⟩

/-- C2: over any finite sequence of connect/disconnect events from a fresh
process, every user's connection counter stays ≥ 0, a disconnect at counter 0
leaves it at 0, and a user reads as online exactly when the counter is
positive. -/
theorem connection_counter_invariant (evs : List PresenceEv) (u t : String) :
    0 ≤ (applyPresenceEvs PresenceState.init evs).connections u
    ∧ (isUserOnline (applyPresenceEvs PresenceState.init evs) u = true
        ↔ 0 < (applyPresenceEvs PresenceState.init evs).connections u)
    ∧ ((applyPresenceEvs PresenceState.init evs).connections u = 0 →
        (setUserOffline (applyPresenceEvs PresenceState.init evs) u t).connections u = 0) := by
  refine ⟨?_, ?_, ?_⟩
  · exact applyPresenceEvs_connections_nonneg evs PresenceState.init
      (fun v => by simp [PresenceState.init]) u
  · simp [isUserOnline]
  · intro h
    unfold setUserOffline
    by_cases hu : u = ""
    · subst hu
      simp [h]
    · simp only [hu, if_false, updFn, if_pos rfl]
      omega

/-- Witness for C2: one connect then one disconnect drives the counter back
to 0, and a further disconnect at 0 leaves it at 0. -/
theorem connection_counter_invariant_witness :
    (applyPresenceEvs PresenceState.init
        [PresenceEv.online "u", PresenceEv.offline "u" "t1"]).connections "u" = 0
    ∧ (setUserOffline (applyPresenceEvs PresenceState.init
        [PresenceEv.online "u", PresenceEv.offline "u" "t1"]) "u" "t2").connections "u" = 0
    ∧ 0 ≤ (applyPresenceEvs PresenceState.init
        [PresenceEv.online "u", PresenceEv.offline "u" "t1"]).connections "u" :=
  ⟨by decide,
    (connection_counter_invariant [PresenceEv.online "u", PresenceEv.offline "u" "t1"]
      "u" "t2").2.2 (by decide),
    (connection_counter_invariant [PresenceEv.online "u", PresenceEv.offline "u" "t1"]
      "u" "t2").1⟩

/-- Counterexample to C7 as stated: with two live connections, a disconnect
leaves the counter at 1 (the user is still online) yet the stored last-seen
changes from `none` to the disconnect time — `setUserOffline` writes last-seen
on every disconnect, not only on the 0-transition. -/
theorem lastSeen_written_while_still_online :
    isUserOnline (setUserOffline
        (setUserOnline (setUserOnline PresenceState.init "u") "u") "u" "t1") "u" = true
    ∧ (setUserOffline
        (setUserOnline (setUserOnline PresenceState.init "u") "u") "u" "t1").lastSeen "u"
      = some "t1"
    ∧ (setUserOnline (setUserOnline PresenceState.init "u") "u").lastSeen "u" = none := by
  decide

/-- C7 (amended): every disconnect of a real user id records the disconnect
time as last-seen — including disconnects that leave the counter above 0 —
and the presence payload of an online subject always carries
`lastSeenAt = null`, so the stored value is exposed only while offline. -/
theorem lastSeen_every_disconnect_online_null (s : PresenceState) (u now : String)
    (hu : u ≠ "") (priv : PrivacyMap) (s2 : PresenceState) (v subj : String)
    (honline : isUserOnline s2 subj = true) :
    (setUserOffline s u now).lastSeen u = some now
    ∧ (makePresencePayload priv s2 v subj).lastSeenAt = none := by
  constructor
  · unfold setUserOffline
    simp [hu, updFn]
  · unfold makePresencePayload
    cases hv : (getPrivacy priv v).showConnectionStatus with
    | false => simp [hv]
    | true =>
      cases hs : (getPrivacy priv subj).showConnectionStatus with
      | false => simp [hv, hs]
      | true => simp [hv, hs, honline]

/-- Witness for the amended C7 at concrete states. -/
theorem lastSeen_every_disconnect_witness :
    ("u" ≠ "" ∧ isUserOnline (setUserOnline PresenceState.init "v") "v" = true)
    ∧ ((setUserOffline PresenceState.init "u" "t9").lastSeen "u" = some "t9"
      ∧ (makePresencePayload (fun _ => none)
          (setUserOnline PresenceState.init "v") "a" "v").lastSeenAt = none) :=
  ⟨by decide,
    lastSeen_every_disconnect_online_null PresenceState.init "u" "t9" (by decide)
      (fun _ => none) (setUserOnline PresenceState.init "v") "a" "v" (by decide)⟩

/-- C10: for a non-empty businessId without colons and a non-empty customerId
(colons allowed), parsing the canonical id round-trips exactly, and
`makeConversationId` is null whenever either argument is empty. -/
theorem conversationId_roundtrip (b c : List Char)
    (hb : b ≠ []) (hbnc : ':' ∉ b) (hc : c ≠ []) :
    (makeConversationId b c).bind parseConversationId = some (b, c)
    ∧ (∀ b' c' : List Char, b' = [] ∨ c' = [] → makeConversationId b' c' = none) :=
  ⟨parse_make_conversationId b c hb hbnc hc,
    fun b' c' h => makeConversationId_eq_none b' c' h⟩

/-- Witness for C10 with a customerId containing a colon. -/
theorem conversationId_roundtrip_witness :
    ("b1".data ≠ [] ∧ ':' ∉ "b1".data ∧ "cu:st".data ≠ [])
    ∧ ((makeConversationId "b1".data "cu:st".data).bind parseConversationId
        = some ("b1".data, "cu:st".data)
      ∧ ∀ b' c' : List Char, b' = [] ∨ c' = [] → makeConversationId b' c' = none) :=
  ⟨by decide,
    conversationId_roundtrip "b1".data "cu:st".data (by decide) (by decide) (by decide)⟩

/-- C6: if the reader opted out of read receipts nothing is emitted at all;
a room member who opted out never receives a read event regardless of the
reader's setting; and with both toggles on, each room member receives the
event. -/
theorem read_receipt_privacy (priv : PrivacyMap) (room : List Sock)
    (thisUserId convoId lastRead readAt : String) :
    ((getPrivacy priv thisUserId).showReadReceipts = false →
        handleRead priv room thisUserId convoId lastRead readAt = [])
    ∧ (∀ s ∈ room, (getPrivacy priv s.userId).showReadReceipts = false →
        ∀ evt, (s, evt) ∉ handleRead priv room thisUserId convoId lastRead readAt)
    ∧ (thisUserId ≠ "" → (getPrivacy priv thisUserId).showReadReceipts = true →
        convoId ≠ "" → ∀ s ∈ room, (getPrivacy priv s.userId).showReadReceipts = true →
        (s, (⟨convoId, thisUserId, lastRead, readAt⟩ : ReadEvt))
          ∈ handleRead priv room thisUserId convoId lastRead readAt) := by
  refine ⟨?_, ?_, ?_⟩
  · intro h
    unfold handleRead
    by_cases ht : thisUserId = ""
    · simp [ht]
    · simp [ht, h]
  · intro s _ hoff evt hmem
    unfold handleRead at hmem
    by_cases ht : thisUserId = ""
    · simp [ht] at hmem
    · by_cases hp : (getPrivacy priv thisUserId).showReadReceipts
      · by_cases hc : convoId = ""
        · simp [ht, hp, hc] at hmem
        · simp only [ht, hp, hc, if_false, Bool.not_true, Bool.false_eq_true] at hmem
          rcases List.mem_map.mp hmem with ⟨s', hs', heq⟩
          have hss : s' = s := (Prod.mk.injEq _ _ _ _).mp heq |>.1
          rcases List.mem_filter.mp hs' with ⟨_, hcond⟩
          rw [hss] at hcond
          rw [hoff] at hcond
          exact absurd hcond (by simp)
      · simp [ht, hp] at hmem
  · intro ht hp hc s hs hv
    unfold handleRead
    simp only [ht, hp, hc, if_false, Bool.not_true, Bool.false_eq_true]
    exact List.mem_map.mpr ⟨s, List.mem_filter.mpr ⟨hs, hv⟩, rfl⟩

/-- Witness for C6: concrete room where the reader shows receipts, one member
has them off (receives nothing) and one has them on (receives the event). -/
theorem read_receipt_privacy_witness :
    ((getPrivacy (updFn (fun _ => none) "carol" (some ⟨true, false⟩)) "carol").showReadReceipts = false
      ∧ handleRead (updFn (fun _ => none) "carol" (some ⟨true, false⟩))
          [⟨"s1", "alice"⟩] "carol" "conv:b:c" "m1" "t1" = [])
    ∧ ((⟨"s2", "carol"⟩ : Sock) ∈ ([⟨"s1", "alice"⟩, ⟨"s2", "carol"⟩] : List Sock)
      ∧ ∀ evt, ((⟨"s2", "carol"⟩ : Sock), evt)
          ∉ handleRead (updFn (fun _ => none) "carol" (some ⟨true, false⟩))
            [⟨"s1", "alice"⟩, ⟨"s2", "carol"⟩] "alice" "conv:b:c" "m1" "t1")
    ∧ (((⟨"s1", "alice"⟩ : Sock), (⟨"conv:b:c", "bob", "m1", "t1"⟩ : ReadEvt))
        ∈ handleRead (updFn (fun _ => none) "carol" (some ⟨true, false⟩))
          [⟨"s1", "alice"⟩] "bob" "conv:b:c" "m1" "t1") := by
  refine ⟨⟨by decide, ?_⟩, ⟨by decide, ?_⟩, ?_⟩
  · exact (read_receipt_privacy (updFn (fun _ => none) "carol" (some ⟨true, false⟩))
      [⟨"s1", "alice"⟩] "carol" "conv:b:c" "m1" "t1").1 (by decide)
  · exact (read_receipt_privacy (updFn (fun _ => none) "carol" (some ⟨true, false⟩))
      [⟨"s1", "alice"⟩, ⟨"s2", "carol"⟩] "alice" "conv:b:c" "m1" "t1").2.1
      ⟨"s2", "carol"⟩ (by decide) (by decide)
  · exact (read_receipt_privacy (updFn (fun _ => none) "carol" (some ⟨true, false⟩))
      [⟨"s1", "alice"⟩] "bob" "conv:b:c" "m1" "t1").2.2 (by decide) (by decide) (by decide)
      ⟨"s1", "alice"⟩ (by decide) (by decide)

/-! ### Message pipeline lemmas -/
lemma parseConversationIdStr_ne_empty {cid : String} {x : String × String}
    (h : parseConversationIdStr cid = some x) : cid ≠ "" := by
  intro he
  rw [he] at h
  have hnone : parseConversationIdStr "" = none := by decide
  rw [hnone] at h
  exact Option.noConfusion h

lemma ne_empty_of_trim_ne_empty {t : String} (h : jsTrim t ≠ "") : t ≠ "" := by
  intro he
  apply h
  rw [he]
  decide

lemma resolveConversationMeta_conv (bizs : List (String × String))
    (ords : List (String × String × String)) {cid b c : String}
    (h : parseConversationIdStr cid = some (b, c)) :
    resolveConversationMeta bizs ords cid =
      { chatId := cid, conversationId := cid, businessId := some b
        customerId := some c, businessOwnerUserId := lookupBusinessOwner bizs b
        orderId := none } := by
  unfold resolveConversationMeta
  rw [if_neg (parseConversationIdStr_ne_empty h), h]

lemma addMessage_conv_ok (bizs : List (String × String))
    (ords : List (String × String × String)) {cid b c : String}
    (hparse : parseConversationIdStr cid = some (b, c))
    (store : List MsgRow) (sid sname text : String) (htext : text ≠ "") :
    addMessage bizs ords true store cid sid sname text
      = (store ++ [⟨cid, sid, if sname = "" then "Anon" else sname, text⟩],
          some ⟨cid, sid, if sname = "" then "Anon" else sname, text⟩) := by
  have hcid := parseConversationIdStr_ne_empty hparse
  unfold addMessage
  rw [if_neg (not_or.mpr ⟨hcid, htext⟩)]
  rw [resolveConversationMeta_conv bizs ords hparse]
  simp [hcid]

lemma addMessage_dbFail (bizs : List (String × String))
    (ords : List (String × String × String)) (store : List MsgRow)
    (chatId sid sname text : String) :
    addMessage bizs ords false store chatId sid sname text = (store, none) := by
  unfold addMessage
  by_cases h : chatId = "" ∨ text = ""
  · simp [h]
  · simp [h]

/-- Shape of a successful text send into a canonical conversation: the row is
appended to the store and exactly the non-skipped room sockets receive it. -/
lemma handleMessage_conv_ok (blocks : List (String × String))
    (bizs : List (String × String)) (ords : List (String × String × String))
    (queryOk : Bool) (store : List MsgRow) (room : List Sock)
    (huid huname cid text B sname clientId : String) {b c : String}
    (hparse : parseConversationIdStr cid = some (b, c))
    (htext : jsTrim text ≠ "") (hB : B ≠ "") :
    handleMessage blocks bizs ords true queryOk store room huid huname cid text B
        sname clientId
      = { store := store ++
            [⟨cid, B, if (if sname = "" then huname else sname) = "" then "Anon"
                else if sname = "" then huname else sname, text⟩]
          delivered := (deliveredSockets room B
              (blockedSetOf blocks queryOk B (destUserIdsOf room B))).map
            (fun s => (s,
              ⟨cid, B, if (if sname = "" then huname else sname) = "" then "Anon"
                else if sname = "" then huname else sname, text⟩, clientId)) } := by
  have hcid := parseConversationIdStr_ne_empty hparse
  unfold handleMessage
  rw [if_neg (not_or.mpr ⟨hcid, htext⟩)]
  rw [resolveConversationMeta_conv bizs ords hparse]
  simp only [hcid, if_false, hB, ite_false]
  rw [addMessage_conv_ok bizs ords hparse store B
    (if sname = "" then huname else sname) text (ne_empty_of_trim_ne_empty htext)]
  simp [hB]

lemma blockedSetOf_queryFail (blocks : List (String × String)) (sender : String)
    (dest : List String) : blockedSetOf blocks false sender dest = [] := by
  unfold blockedSetOf
  by_cases h : sender ≠ "" ∧ dest ≠ []
  · simp [h]
  · simp [h]

lemma deliveredSockets_empty_blocked (sockets : List Sock) (sender : String) :
    deliveredSockets sockets sender [] = sockets := by
  unfold deliveredSockets shouldSkip
  simp

/-- C4: when the batched blocked-set lookup fails, the send proceeds with an
empty blocked set — every socket in the room receives the message, including
sockets of users who have in fact blocked the sender. -/
theorem blocked_lookup_failure_fail_open (blocks : List (String × String))
    (bizs : List (String × String)) (ords : List (String × String × String))
    (store : List MsgRow) (room : List Sock)
    (huid huname cid text B sname clientId : String) {b c : String}
    (hparse : parseConversationIdStr cid = some (b, c))
    (htext : jsTrim text ≠ "") (hB : B ≠ "") :
    ∃ row : MsgRow, row.order_id = cid ∧ row.sender_id = B ∧ row.text = text
      ∧ (handleMessage blocks bizs ords true false store room huid huname cid text B
            sname clientId).delivered
          = room.map (fun s => (s, row, clientId))
      ∧ ∀ s ∈ room, (jsTrim s.userId, B) ∈ blocks →
          (s, row, clientId) ∈ (handleMessage blocks bizs ords true false store room
            huid huname cid text B sname clientId).delivered := by
  refine ⟨⟨cid, B, if (if sname = "" then huname else sname) = "" then "Anon"
    else if sname = "" then huname else sname, text⟩, rfl, rfl, rfl, ?_, ?_⟩
  · rw [handleMessage_conv_ok blocks bizs ords false store room huid huname cid text B
      sname clientId hparse htext hB]
    rw [blockedSetOf_queryFail, deliveredSockets_empty_blocked]
  · intro s hs _
    rw [handleMessage_conv_ok blocks bizs ords false store room huid huname cid text B
      sname clientId hparse htext hB]
    rw [blockedSetOf_queryFail, deliveredSockets_empty_blocked]
    exact List.mem_map.mpr ⟨s, hs, rfl⟩

/-- Witness for C4: a room member who blocked the sender still receives the
message when the block query fails. -/
theorem blocked_lookup_failure_fail_open_witness :
    (parseConversationIdStr "conv:b1:c1" = some ("b1", "c1")
      ∧ jsTrim "hola" ≠ "" ∧ "bob" ≠ "")
    ∧ ∃ row : MsgRow, row.order_id = "conv:b1:c1" ∧ row.sender_id = "bob"
        ∧ row.text = "hola"
        ∧ (handleMessage [("alice", "bob")] [] [] true false []
              [⟨"s1", "alice"⟩, ⟨"s2", "bob"⟩] "bob" "Bob" "conv:b1:c1" "hola" "bob"
              "Bob" "k1").delivered
            = [⟨"s1", "alice"⟩, ⟨"s2", "bob"⟩].map (fun s => (s, row, "k1"))
        ∧ ∀ s ∈ ([⟨"s1", "alice"⟩, ⟨"s2", "bob"⟩] : List Sock),
            (jsTrim s.userId, "bob") ∈ [("alice", "bob")] →
            (s, row, "k1") ∈ (handleMessage [("alice", "bob")] [] [] true false []
              [⟨"s1", "alice"⟩, ⟨"s2", "bob"⟩] "bob" "Bob" "conv:b1:c1" "hola" "bob"
              "Bob" "k1").delivered :=
  ⟨by decide,
    blocked_lookup_failure_fail_open [("alice", "bob")] [] [] []
      [⟨"s1", "alice"⟩, ⟨"s2", "bob"⟩] "bob" "Bob" "conv:b1:c1" "hola" "bob" "Bob" "k1"
      (show parseConversationIdStr "conv:b1:c1" = some ("b1", "c1") by decide)
      (by decide) (by decide)⟩

/-- Counterexample to C5 as stated: with the message insert failing, no
`message` event is emitted (that half holds), but the caller receives no
explicit error — the socket handler produces no emission of any kind, and the
HTTP fallback answers status 201 (a success status, below the 4xx/5xx error
range) with a null message. -/
theorem persistence_failure_no_explicit_error :
    (handleMessage [] [] [] false true []
        [⟨"s1", "alice"⟩, ⟨"s2", "bob"⟩] "bob" "Bob" "conv:b1:c1" "hola" "bob" "Bob" "k1")
      = { store := [], delivered := [] }
    ∧ postMessageRoute [] [] false [] "conv:b1:c1" "hola" "bob" "Bob" = ([], 201, none)
    ∧ (201 : Nat) < 400 := by
  decide

/-- C5 (amended): when persistence fails, no `message` event is emitted to
any socket and the store is unchanged — but the caller receives no explicit
error: the socket handler ends silently and the HTTP fallback returns
201 with `message: null`. -/
theorem persistence_failure_silent (blocks : List (String × String))
    (bizs : List (String × String)) (ords : List (String × String × String))
    (queryOk : Bool) (store : List MsgRow) (room : List Sock)
    (huid huname roomIdRaw ptext psid psname clientId : String)
    (chatId rtext rsid rsname : String) (hrtext : rtext ≠ "") :
    (handleMessage blocks bizs ords false queryOk store room huid huname roomIdRaw
        ptext psid psname clientId).delivered = []
    ∧ (handleMessage blocks bizs ords false queryOk store room huid huname roomIdRaw
        ptext psid psname clientId).store = store
    ∧ postMessageRoute bizs ords false store chatId rtext rsid rsname
        = (store, 201, none) := by
  have hmain : handleMessage blocks bizs ords false queryOk store room huid huname
      roomIdRaw ptext psid psname clientId = { store := store, delivered := [] } := by
    unfold handleMessage
    by_cases hg : roomIdRaw = "" ∨ jsTrim ptext = ""
    · simp [hg]
    · simp [hg, addMessage_dbFail]
  refine ⟨by rw [hmain], by rw [hmain], ?_⟩
  unfold postMessageRoute
  rw [if_neg hrtext]
  simp [addMessage_dbFail]

/-- Witness for the amended C5 at concrete inputs. -/
theorem persistence_failure_silent_witness :
    ("hola" ≠ "")
    ∧ ((handleMessage [] [] [] false true [] [⟨"s1", "alice"⟩] "bob" "Bob"
          "conv:b1:c1" "hola" "bob" "Bob" "k1").delivered = []
      ∧ (handleMessage [] [] [] false true [] [⟨"s1", "alice"⟩] "bob" "Bob"
          "conv:b1:c1" "hola" "bob" "Bob" "k1").store = []
      ∧ postMessageRoute [] [] false [] "conv:b1:c1" "hola" "bob" "Bob"
          = ([], 201, none)) :=
  ⟨by decide,
    persistence_failure_silent [] [] [] true [] [⟨"s1", "alice"⟩] "bob" "Bob"
      "conv:b1:c1" "hola" "bob" "Bob" "k1" "conv:b1:c1" "hola" "bob" "Bob" (by decide)⟩

/-! ### Room membership lemmas -/
lemma roomInv_preserved (bizs : List (String × String))
    (ords : List (String × String × String)) (st : SockRoomState) (rid : String)
    (h : roomInv st) : roomInv (handleJoinOrder bizs ords st rid) := by
  obtain ⟨rooms, cv⟩ := st
  unfold handleJoinOrder
  by_cases hr : rid = ""
  · simpa [hr] using h
  · simp only [hr, if_false]
    generalize (if (resolveConversationMeta bizs ords rid).conversationId = "" then rid
      else (resolveConversationMeta bizs ords rid).conversationId) = convoId
    cases cv with
    | none =>
      have hr0 : rooms = [] := h
      subst hr0
      simp [roomInv, socketJoin]
    | some prev =>
      have hr1 : rooms = [prev] := h
      subst hr1
      by_cases hpc : prev = convoId
      · subst hpc
        simp [roomInv, socketJoin, socketLeave]
      · simp [roomInv, socketJoin, socketLeave, hpc]

/-- C8: joining conversation B while in conversation A leaves A's room before
joining B — afterwards the socket is exactly in B's room, a broadcast to A no
longer reaches it, and the single-room invariant is preserved by every join. -/
theorem join_switches_room (bizs : List (String × String))
    (ords : List (String × String × String)) (st : SockRoomState) (A Bid : String)
    {b c : String} (hparse : parseConversationIdStr Bid = some (b, c))
    (hconv : st.conversationId = some A) (hrooms : st.chatRooms = [A])
    (hne : Bid ≠ A) :
    (handleJoinOrder bizs ords st Bid).chatRooms = [Bid]
    ∧ receivesRoomBroadcast (handleJoinOrder bizs ords st Bid) A = false
    ∧ (handleJoinOrder bizs ords st Bid).conversationId = some Bid
    ∧ (∀ st2 rid, roomInv st2 → roomInv (handleJoinOrder bizs ords st2 rid)) := by
  have hBid := parseConversationIdStr_ne_empty hparse
  obtain ⟨rooms, cv⟩ := st
  simp only at hconv hrooms
  subst hconv
  subst hrooms
  have hstep : handleJoinOrder bizs ords ⟨[A], some A⟩ Bid
      = ⟨[Bid], some Bid⟩ := by
    unfold handleJoinOrder
    rw [if_neg hBid, resolveConversationMeta_conv bizs ords hparse]
    simp [hBid, socketLeave, socketJoin, Ne.symm hne]
  refine ⟨by rw [hstep], ?_, by rw [hstep], ?_⟩
  · rw [hstep]
    unfold receivesRoomBroadcast
    simp only [List.contains_cons, List.contains_nil, Bool.or_false, beq_eq_false_iff_ne]
    exact Ne.symm hne
  · intro st2 rid h2
    exact roomInv_preserved bizs ords st2 rid h2

/-- Witness for C8: a socket in `conv:x:y` joins `conv:x:z`. -/
theorem join_switches_room_witness :
    (parseConversationIdStr "conv:x:z" = some ("x", "z")
      ∧ (⟨["conv:x:y"], some "conv:x:y"⟩ : SockRoomState).conversationId
          = some "conv:x:y"
      ∧ (⟨["conv:x:y"], some "conv:x:y"⟩ : SockRoomState).chatRooms = ["conv:x:y"]
      ∧ "conv:x:z" ≠ "conv:x:y")
    ∧ ((handleJoinOrder [] [] ⟨["conv:x:y"], some "conv:x:y"⟩ "conv:x:z").chatRooms
          = ["conv:x:z"]
      ∧ receivesRoomBroadcast
          (handleJoinOrder [] [] ⟨["conv:x:y"], some "conv:x:y"⟩ "conv:x:z")
          "conv:x:y" = false
      ∧ (handleJoinOrder [] [] ⟨["conv:x:y"], some "conv:x:y"⟩
          "conv:x:z").conversationId = some "conv:x:z"
      ∧ (∀ st2 rid, roomInv st2 → roomInv (handleJoinOrder [] [] st2 rid))) :=
  ⟨by decide,
    join_switches_room [] [] ⟨["conv:x:y"], some "conv:x:y"⟩ "conv:x:y" "conv:x:z"
      (show parseConversationIdStr "conv:x:z" = some ("x", "z") by decide)
      rfl rfl (by decide)⟩

/-! ### Fan-out membership lemmas -/
lemma dedupAcc_mem (l : List String) : ∀ (seen : List String) (x : String),
    x ∈ dedupAcc seen l ↔ x ∈ l ∧ x ∉ seen := by
  induction l with
  | nil => intro seen x; simp [dedupAcc]
  | cons y ys ih =>
    intro seen x
    unfold dedupAcc
    by_cases hy : seen.contains y
    · rw [if_pos hy, ih]
      have hymem : y ∈ seen := List.elem_iff.mp hy
      constructor
      · rintro ⟨hx, hxs⟩
        exact ⟨List.mem_cons_of_mem _ hx, hxs⟩
      · rintro ⟨hx, hxs⟩
        rcases List.mem_cons.mp hx with h1 | h1
        · exact absurd (h1 ▸ hymem) hxs
        · exact ⟨h1, hxs⟩
    · rw [if_neg hy]
      have hynmem : y ∉ seen := fun hm => hy (List.elem_iff.mpr hm)
      constructor
      · intro hx
        rcases List.mem_cons.mp hx with h1 | h1
        · subst h1
          exact ⟨List.mem_cons_self _ _, hynmem⟩
        · rcases (ih (y :: seen) x).mp h1 with ⟨hx2, hxs2⟩
          exact ⟨List.mem_cons_of_mem _ hx2, fun hs => hxs2 (List.mem_cons_of_mem _ hs)⟩
      · rintro ⟨hx, hxs⟩
        rcases List.mem_cons.mp hx with h1 | h1
        · subst h1
          exact List.mem_cons_self _ _
        · by_cases hxy : x = y
          · subst hxy
            exact List.mem_cons_self _ _
          · refine List.mem_cons_of_mem _ ((ih (y :: seen) x).mpr ⟨h1, ?_⟩)
            intro hs
            rcases List.mem_cons.mp hs with h2 | h2
            · exact hxy h2
            · exact hxs h2

lemma destUserIdsOf_mem_intro (room : List Sock) (sender uid : String)
    (s : Sock) (hs : s ∈ room) (ht : jsTrim s.userId = uid) (hu : uid ≠ "")
    (hus : uid ≠ sender) : uid ∈ destUserIdsOf room sender := by
  unfold destUserIdsOf
  rw [dedupAcc_mem]
  refine ⟨?_, by simp⟩
  refine List.mem_filter.mpr ⟨List.mem_filter.mpr ⟨List.mem_map.mpr ⟨s, hs, ht⟩, ?_⟩, ?_⟩
  · simp [hu]
  · simp [hus]

lemma blockedSetOf_mem_of (blocks : List (String × String)) (sender : String)
    (dest : List String) (uid : String)
    (h : uid ∈ blockedSetOf blocks true sender dest) :
    (uid, sender) ∈ blocks ∧ uid ∈ dest ∧ uid ≠ "" := by
  unfold blockedSetOf at h
  by_cases hc : sender ≠ "" ∧ dest ≠ []
  · rw [if_pos hc, if_pos rfl] at h
    rcases List.mem_filter.mp h with ⟨hmap, hne⟩
    rcases List.mem_map.mp hmap with ⟨p, hp, hp1⟩
    rcases List.mem_filter.mp hp with ⟨hpb, hcond⟩
    have hcond' : p.2 = sender ∧ p.1 ∈ dest := of_decide_eq_true hcond
    have hpu : p = (uid, sender) := by
      cases p
      simp only at hp1 hcond'
      rw [hp1, hcond'.1]
    refine ⟨hpu ▸ hpb, hp1 ▸ hcond'.2, ?_⟩
    simpa using hne
  · rw [if_neg hc] at h
    exact absurd h (List.not_mem_nil uid)

lemma blockedSetOf_mem_intro (blocks : List (String × String)) (sender : String)
    (dest : List String) (uid : String) (hb : (uid, sender) ∈ blocks)
    (hd : uid ∈ dest) (hu : uid ≠ "") (hs : sender ≠ "") :
    uid ∈ blockedSetOf blocks true sender dest := by
  unfold blockedSetOf
  have hdne : dest ≠ [] := by
    intro he
    rw [he] at hd
    exact List.not_mem_nil uid hd
  rw [if_pos ⟨hs, hdne⟩, if_pos rfl]
  refine List.mem_filter.mpr ⟨List.mem_map.mpr ⟨(uid, sender), ?_, rfl⟩, by simp [hu]⟩
  exact List.mem_filter.mpr ⟨hb, decide_eq_true ⟨rfl, hd⟩⟩

lemma deliveredSockets_mem (sockets : List Sock) (sender : String)
    (bset : List String) (s : Sock) :
    s ∈ deliveredSockets sockets sender bset ↔
      s ∈ sockets ∧ ¬(sender ≠ "" ∧ jsTrim s.userId ≠ "" ∧ jsTrim s.userId ≠ sender
        ∧ jsTrim s.userId ∈ bset) := by
  unfold deliveredSockets shouldSkip
  rw [List.mem_filter]
  have hcond : (!(!(sender == "") && !(jsTrim s.userId == "")
        && !(jsTrim s.userId == sender) && bset.contains (jsTrim s.userId))) = true
      ↔ ¬(sender ≠ "" ∧ jsTrim s.userId ≠ "" ∧ jsTrim s.userId ≠ sender
        ∧ jsTrim s.userId ∈ bset) := by
    simp [List.elem_iff, and_assoc]
    tauto
  rw [hcond]

/-- C3: with A blocking B, a text message sent by B into the canonical
conversation is persisted (independently of the block table), is not emitted
to any socket whose (trimmed) owning user is A, reaches every room socket
whose owner has not blocked B — the sender's own sockets always, tagged with
the client's provisional id — and after A unblocks B a fresh history query by
A still returns the row. -/
theorem blocked_user_not_delivered (blocks : List (String × String))
    (bizs : List (String × String)) (ords : List (String × String × String))
    (store : List MsgRow) (room : List Sock)
    (huid huname cid text A B sname clientId : String) {b c : String}
    (hparse : parseConversationIdStr cid = some (b, c))
    (htext : jsTrim text ≠ "") (hA : A ≠ "") (hB : B ≠ "") (hAB : A ≠ B)
    (hblocked : (A, B) ∈ blocks) :
    ∃ row : MsgRow,
      row.order_id = cid ∧ row.sender_id = B ∧ row.text = text
      ∧ (∀ blocks2 : List (String × String),
          (handleMessage blocks2 bizs ords true true store room huid huname cid text B
            sname clientId).store = store ++ [row])
      ∧ (∀ s ∈ room, jsTrim s.userId = A →
          ∀ e ∈ (handleMessage blocks bizs ords true true store room huid huname cid
            text B sname clientId).delivered, e.1 ≠ s)
      ∧ (∀ s ∈ room, (jsTrim s.userId, B) ∉ blocks →
          (s, row, clientId) ∈ (handleMessage blocks bizs ords true true store room
            huid huname cid text B sname clientId).delivered)
      ∧ (∀ s ∈ room, jsTrim s.userId = B →
          (s, row, clientId) ∈ (handleMessage blocks bizs ords true true store room
            huid huname cid text B sname clientId).delivered)
      ∧ row ∈ getMessages (blocks.filter (fun p => !(p.1 == A && p.2 == B))) bizs ords
          ((handleMessage blocks bizs ords true true store room huid huname cid text B
            sname clientId).store) cid A := by
  have hcid := parseConversationIdStr_ne_empty hparse
  refine ⟨⟨cid, B, if (if sname = "" then huname else sname) = "" then "Anon"
    else if sname = "" then huname else sname, text⟩, rfl, rfl, rfl, ?_, ?_, ?_, ?_, ?_⟩
  · intro blocks2
    rw [handleMessage_conv_ok blocks2 bizs ords true store room huid huname cid text B
      sname clientId hparse htext hB]
  · intro s hs htA e he hes
    rw [handleMessage_conv_ok blocks bizs ords true store room huid huname cid text B
      sname clientId hparse htext hB] at he
    rcases List.mem_map.mp he with ⟨s', hs', heq⟩
    have hs'e : s' = e.1 := by rw [← heq]
    rw [hes] at hs'e
    rw [hs'e] at hs'
    rcases (deliveredSockets_mem room B _ s).mp hs' with ⟨_, hnskip⟩
    apply hnskip
    refine ⟨hB, ?_, ?_, ?_⟩
    · rw [htA]; exact hA
    · rw [htA]; exact hAB
    · rw [htA]
      exact blockedSetOf_mem_intro blocks B (destUserIdsOf room B) A hblocked
        (destUserIdsOf_mem_intro room B A s hs htA hA hAB) hA hB
  · intro s hs hnb
    rw [handleMessage_conv_ok blocks bizs ords true store room huid huname cid text B
      sname clientId hparse htext hB]
    refine List.mem_map.mpr ⟨s, ?_, rfl⟩
    refine (deliveredSockets_mem room B _ s).mpr ⟨hs, ?_⟩
    rintro ⟨_, _, _, hbm⟩
    exact hnb (blockedSetOf_mem_of blocks B (destUserIdsOf room B)
      (jsTrim s.userId) hbm).1
  · intro s hs htB
    rw [handleMessage_conv_ok blocks bizs ords true store room huid huname cid text B
      sname clientId hparse htext hB]
    refine List.mem_map.mpr ⟨s, ?_, rfl⟩
    refine (deliveredSockets_mem room B _ s).mpr ⟨hs, ?_⟩
    rintro ⟨_, _, hneq, _⟩
    exact hneq htB
  · rw [handleMessage_conv_ok blocks bizs ords true store room huid huname cid text B
      sname clientId hparse htext hB]
    unfold getMessages
    rw [if_neg hcid, resolveConversationMeta_conv bizs ords hparse]
    simp only [if_neg hcid, if_neg hA]
    refine List.mem_filter.mpr ⟨List.mem_filter.mpr ⟨?_, by simp⟩, ?_⟩
    · exact List.mem_append_right store (List.mem_singleton.mpr rfl)
    · simp only [Bool.not_eq_true', ← Bool.not_eq_true]
      intro hBin
      have hBin' : B ∈ (((blocks.filter (fun p => !(p.1 == A && p.2 == B))).filter
          (fun p => p.1 = A)).map (fun p => p.2)) := by
        rw [← List.elem_iff]
        exact hBin
      rcases List.mem_map.mp hBin' with ⟨p, hp, hp2⟩
      rcases List.mem_filter.mp hp with ⟨hp', hpA⟩
      have hpA' : p.1 = A := of_decide_eq_true hpA
      rcases List.mem_filter.mp hp' with ⟨_, hcond⟩
      rw [Bool.not_eq_true', Bool.and_eq_false_iff] at hcond
      rcases hcond with h1 | h1
      · exact absurd (beq_iff_eq.mpr hpA') (by rw [h1]; exact Bool.false_ne_true)
      · exact absurd (beq_iff_eq.mpr hp2) (by rw [h1]; exact Bool.false_ne_true)

/-- Witness for C3: alice blocked bob; bob sends into `conv:b1:c1` with
alice, bob and carol in the room. -/
theorem blocked_user_not_delivered_witness :
    (parseConversationIdStr "conv:b1:c1" = some ("b1", "c1")
      ∧ jsTrim "hola" ≠ "" ∧ "alice" ≠ "" ∧ "bob" ≠ "" ∧ "alice" ≠ "bob"
      ∧ ("alice", "bob") ∈ [("alice", "bob")])
    ∧ ∃ row : MsgRow,
      row.order_id = "conv:b1:c1" ∧ row.sender_id = "bob" ∧ row.text = "hola"
      ∧ (∀ blocks2 : List (String × String),
          (handleMessage blocks2 [] [] true true []
            [⟨"s1", "alice"⟩, ⟨"s2", "bob"⟩, ⟨"s3", "carol"⟩] "bob" "Bob"
            "conv:b1:c1" "hola" "bob" "Bob" "k1").store = [] ++ [row])
      ∧ (∀ s ∈ ([⟨"s1", "alice"⟩, ⟨"s2", "bob"⟩, ⟨"s3", "carol"⟩] : List Sock),
          jsTrim s.userId = "alice" →
          ∀ e ∈ (handleMessage [("alice", "bob")] [] [] true true []
            [⟨"s1", "alice"⟩, ⟨"s2", "bob"⟩, ⟨"s3", "carol"⟩] "bob" "Bob"
            "conv:b1:c1" "hola" "bob" "Bob" "k1").delivered, e.1 ≠ s)
      ∧ (∀ s ∈ ([⟨"s1", "alice"⟩, ⟨"s2", "bob"⟩, ⟨"s3", "carol"⟩] : List Sock),
          (jsTrim s.userId, "bob") ∉ [("alice", "bob")] →
          (s, row, "k1") ∈ (handleMessage [("alice", "bob")] [] [] true true []
            [⟨"s1", "alice"⟩, ⟨"s2", "bob"⟩, ⟨"s3", "carol"⟩] "bob" "Bob"
            "conv:b1:c1" "hola" "bob" "Bob" "k1").delivered)
      ∧ (∀ s ∈ ([⟨"s1", "alice"⟩, ⟨"s2", "bob"⟩, ⟨"s3", "carol"⟩] : List Sock),
          jsTrim s.userId = "bob" →
          (s, row, "k1") ∈ (handleMessage [("alice", "bob")] [] [] true true []
            [⟨"s1", "alice"⟩, ⟨"s2", "bob"⟩, ⟨"s3", "carol"⟩] "bob" "Bob"
            "conv:b1:c1" "hola" "bob" "Bob" "k1").delivered)
      ∧ row ∈ getMessages ([("alice", "bob")].filter
            (fun p => !(p.1 == "alice" && p.2 == "bob"))) [] []
          ((handleMessage [("alice", "bob")] [] [] true true []
            [⟨"s1", "alice"⟩, ⟨"s2", "bob"⟩, ⟨"s3", "carol"⟩] "bob" "Bob"
            "conv:b1:c1" "hola" "bob" "Bob" "k1").store) "conv:b1:c1" "alice" :=
  ⟨by decide,
    blocked_user_not_delivered [("alice", "bob")] [] [] []
      [⟨"s1", "alice"⟩, ⟨"s2", "bob"⟩, ⟨"s3", "carol"⟩] "bob" "Bob" "conv:b1:c1"
      "hola" "alice" "bob" "Bob" "k1"
      (show parseConversationIdStr "conv:b1:c1" = some ("b1", "c1") by decide)
      (by decide) (by decide) (by decide) (by decide) (by decide)⟩

/-! ### Watch registry lemmas -/
lemma removeFold_not_mem (subjects : List String) (sid : String) :
    ∀ (f : String → List String) (u : String), sid ∉ f u →
      sid ∉ (subjects.foldl
        (fun g uid => updFn g uid ((g uid).filter (fun x => !(x == sid)))) f) u := by
  induction subjects with
  | nil => intro f u h; exact h
  | cons y ys ih =>
    intro f u h
    simp only [List.foldl_cons]
    apply ih
    unfold updFn
    by_cases hu : u = y
    · rw [if_pos hu]
      intro hmem
      rcases List.mem_filter.mp hmem with ⟨_, hcond⟩
      simp at hcond
    · rw [if_neg hu]
      exact h

lemma removeFold_mem_subjects (subjects : List String) (sid : String) :
    ∀ (f : String → List String) (u : String), u ∈ subjects →
      sid ∉ (subjects.foldl
        (fun g uid => updFn g uid ((g uid).filter (fun x => !(x == sid)))) f) u := by
  induction subjects with
  | nil => intro f u h; exact absurd h (List.not_mem_nil u)
  | cons y ys ih =>
    intro f u hu
    rcases List.mem_cons.mp hu with h1 | h1
    · subst h1
      simp only [List.foldl_cons]
      apply removeFold_not_mem
      unfold updFn
      rw [if_pos rfl]
      intro hmem
      rcases List.mem_filter.mp hmem with ⟨_, hcond⟩
      simp at hcond
    · simp only [List.foldl_cons]
      exact ih _ u h1

lemma removeAll_clears (st : WatchState) (sid : String) (hwf : WatchWF st)
    (hsid : sid ≠ "") :
    ∀ u, sid ∉ (removeAllPresenceWatchesForSocket st sid).socketsWatchingUser u := by
  intro u
  unfold removeAllPresenceWatchesForSocket
  rw [if_neg hsid]
  by_cases hmem : sid ∈ st.socketsWatchingUser u
  · exact removeFold_mem_subjects _ sid _ u ((hwf u sid).mp hmem)
  · exact removeFold_not_mem _ sid _ u hmem

lemma addFold_mem (sid self : String) (hsid : sid ≠ "") :
    ∀ (list : List String), (∀ x ∈ list, x ≠ "") →
    ∀ (st1 : WatchState) (S : List String),
      (∀ u, sid ∈ st1.socketsWatchingUser u ↔ u ∈ S) →
      ∀ u, sid ∈ ((list.foldl (fun acc uid => if uid = self then acc
          else addPresenceWatch acc sid uid) st1).socketsWatchingUser u)
        ↔ u ∈ S ∨ u ∈ list.filter (fun x => !(x == self)) := by
  intro list
  induction list with
  | nil =>
    intro _ st1 S hbase u
    simp [hbase u]
  | cons y ys ih =>
    intro hlist st1 S hbase u
    simp only [List.foldl_cons]
    by_cases hy : y = self
    · rw [if_pos hy]
      rw [ih (fun x hx => hlist x (List.mem_cons_of_mem y hx)) st1 S hbase u]
      subst hy
      simp
    · rw [if_neg hy]
      have hyne : y ≠ "" := hlist y (List.mem_cons_self y ys)
      have hbase' : ∀ v, sid ∈ (addPresenceWatch st1 sid y).socketsWatchingUser v
          ↔ v ∈ y :: S := by
        intro v
        unfold addPresenceWatch
        rw [if_neg (by push_neg; exact ⟨hsid, hyne⟩)]
        simp only
        unfold updFn
        by_cases hv : v = y
        · subst hv
          rw [if_pos rfl]
          unfold setAdd
          constructor
          · intro _
            exact List.mem_cons_self v S
          · intro _
            by_cases hctn : (st1.socketsWatchingUser v).contains sid
            · rw [if_pos hctn]
              exact List.elem_iff.mp hctn
            · rw [if_neg hctn]
              exact List.mem_append_right _ (List.mem_singleton.mpr rfl)
        · rw [if_neg hv, hbase v]
          constructor
          · exact fun h => List.mem_cons_of_mem _ h
          · intro h
            rcases List.mem_cons.mp h with h1 | h1
            · exact absurd h1 hv
            · exact h1
      rw [ih (fun x hx => hlist x (List.mem_cons_of_mem y hx))
        (addPresenceWatch st1 sid y) (y :: S) hbase' u]
      constructor
      · rintro (h1 | h1)
        · rcases List.mem_cons.mp h1 with h2 | h2
          · subst h2
            right
            exact List.mem_filter.mpr ⟨List.mem_cons_self _ _, by simp [hy]⟩
          · left
            exact h2
        · rcases List.mem_filter.mp h1 with ⟨hm, hc⟩
          right
          exact List.mem_filter.mpr ⟨List.mem_cons_of_mem _ hm, hc⟩
      · rintro (h1 | h1)
        · left
          exact List.mem_cons_of_mem _ h1
        · rcases List.mem_filter.mp h1 with ⟨hm, hc⟩
          rcases List.mem_cons.mp hm with h2 | h2
          · subst h2
            left
            exact List.mem_cons_self _ _
          · right
            exact List.mem_filter.mpr ⟨h2, hc⟩

lemma dedupAcc_nodup (l : List String) : ∀ seen, (dedupAcc seen l).Nodup := by
  induction l with
  | nil => intro seen; simp [dedupAcc]
  | cons y ys ih =>
    intro seen
    unfold dedupAcc
    by_cases hy : seen.contains y
    · rw [if_pos hy]
      exact ih seen
    · rw [if_neg hy]
      refine List.nodup_cons.mpr ⟨?_, ih (y :: seen)⟩
      intro hmem
      rcases (dedupAcc_mem ys (y :: seen) y).mp hmem with ⟨_, hns⟩
      exact hns (List.mem_cons_self y seen)

lemma dedupAcc_length_le (l : List String) : ∀ seen, (dedupAcc seen l).length ≤ l.length := by
  induction l with
  | nil => intro seen; simp [dedupAcc]
  | cons y ys ih =>
    intro seen
    unfold dedupAcc
    by_cases hy : seen.contains y
    · rw [if_pos hy]
      exact le_trans (ih seen) (Nat.le_succ _)
    · rw [if_neg hy]
      simpa using ih (y :: seen)

lemma acceptedWatchList_length_le (raw : List String) :
    (acceptedWatchList raw).length ≤ 200 := by
  unfold acceptedWatchList
  exact le_trans (dedupAcc_length_le _ []) (List.length_take_le _ _)

lemma acceptedWatchList_nodup (raw : List String) : (acceptedWatchList raw).Nodup :=
  dedupAcc_nodup _ []

lemma acceptedWatchList_mem (raw : List String) (x : String)
    (h : x ∈ acceptedWatchList raw) : x ∈ raw.map (fun v => jsTrim v) ∧ x ≠ "" := by
  unfold acceptedWatchList at h
  rcases (dedupAcc_mem _ [] x).mp h with ⟨hx, _⟩
  have hx2 := List.mem_of_mem_take hx
  rcases List.mem_filter.mp hx2 with ⟨hx3, hcond⟩
  refine ⟨hx3, ?_⟩
  simpa using hcond

/-- C9: a `presence:watch` request replaces the connection's subscription set
wholesale — afterwards the socket watches exactly the accepted subjects (so no
residual pushes for previously watched subjects); the accepted subjects are
deduplicated, exclude the requester, keep at most 200 entries, and all come
from the request; an immediate snapshot is pushed for every accepted subject. -/
theorem presence_watch_replace (st : WatchState) (socketId thisUserId : String)
    (ids : List String) (hwf : WatchWF st) (hsid : socketId ≠ "")
    (hthis : thisUserId ≠ "") :
    ((handlePresenceWatch st socketId thisUserId (some ids)).2 = acceptedWatchList ids)
    ∧ (∀ u, socketId ∈ (handlePresenceWatch st socketId thisUserId
          (some ids)).1.socketsWatchingUser u
        ↔ u ∈ (acceptedWatchList ids).filter (fun x => !(x == thisUserId)))
    ∧ ((acceptedWatchList ids).filter (fun x => !(x == thisUserId))).Nodup
    ∧ ((acceptedWatchList ids).filter (fun x => !(x == thisUserId))).length ≤ 200
    ∧ (∀ x ∈ (acceptedWatchList ids).filter (fun x => !(x == thisUserId)),
        x ∈ ids.map (fun v => jsTrim v) ∧ x ≠ thisUserId ∧ x ≠ "")
    ∧ (∀ x ∈ (acceptedWatchList ids).filter (fun x => !(x == thisUserId)),
        x ∈ (handlePresenceWatch st socketId thisUserId (some ids)).2) := by
  have hsnap : (handlePresenceWatch st socketId thisUserId (some ids)).2
      = acceptedWatchList ids := by
    unfold handlePresenceWatch
    rw [if_neg hthis]
  have hstate : (handlePresenceWatch st socketId thisUserId (some ids)).1
      = (acceptedWatchList ids).foldl
          (fun acc uid => if uid = thisUserId then acc
            else addPresenceWatch acc socketId uid)
          (removeAllPresenceWatchesForSocket st socketId) := by
    unfold handlePresenceWatch
    rw [if_neg hthis]
  refine ⟨hsnap, ?_, (acceptedWatchList_nodup ids).filter _,
    le_trans (List.length_filter_le _ _) (acceptedWatchList_length_le ids), ?_, ?_⟩
  · intro u
    rw [hstate]
    have hbase : ∀ v, socketId ∈ (removeAllPresenceWatchesForSocket st
        socketId).socketsWatchingUser v ↔ v ∈ ([] : List String) := by
      intro v
      simp [removeAll_clears st socketId hwf hsid v]
    rw [addFold_mem socketId thisUserId hsid (acceptedWatchList ids)
      (fun x hx => (acceptedWatchList_mem ids x hx).2)
      (removeAllPresenceWatchesForSocket st socketId) [] hbase u]
    simp
  · intro x hx
    rcases List.mem_filter.mp hx with ⟨hm, hc⟩
    rcases acceptedWatchList_mem ids x hm with ⟨hmap, hne⟩
    refine ⟨hmap, ?_, hne⟩
    simpa using hc
  · intro x hx
    rw [hsnap]
    exact (List.mem_filter.mp hx).1

/-- Witness for C9: watching `["a", "b", "me", "a"]` as user `me` from a state
where socket `s1` already watched `"z"`. -/
theorem presence_watch_replace_witness :
    (WatchWF (WatchState.empty) ∧ "s1" ≠ "" ∧ "me" ≠ "")
    ∧ (((handlePresenceWatch WatchState.empty "s1" "me"
          (some ["a", "b", "me", "a"])).2 = acceptedWatchList ["a", "b", "me", "a"])
      ∧ (∀ u, "s1" ∈ (handlePresenceWatch WatchState.empty "s1" "me"
            (some ["a", "b", "me", "a"])).1.socketsWatchingUser u
          ↔ u ∈ (acceptedWatchList ["a", "b", "me", "a"]).filter
              (fun x => !(x == "me")))
      ∧ ((acceptedWatchList ["a", "b", "me", "a"]).filter
          (fun x => !(x == "me"))).Nodup
      ∧ ((acceptedWatchList ["a", "b", "me", "a"]).filter
          (fun x => !(x == "me"))).length ≤ 200
      ∧ (∀ x ∈ (acceptedWatchList ["a", "b", "me", "a"]).filter
            (fun x => !(x == "me")),
          x ∈ (["a", "b", "me", "a"] : List String).map (fun v => jsTrim v)
            ∧ x ≠ "me" ∧ x ≠ "")
      ∧ (∀ x ∈ (acceptedWatchList ["a", "b", "me", "a"]).filter
            (fun x => !(x == "me")),
          x ∈ (handlePresenceWatch WatchState.empty "s1" "me"
            (some ["a", "b", "me", "a"])).2)) :=
  ⟨⟨fun u sid => by simp [WatchState.empty], by decide, by decide⟩,
    presence_watch_replace WatchState.empty "s1" "me" ["a", "b", "me", "a"]
      (fun u sid => by simp [WatchState.empty]) (by decide) (by decide)⟩
